import Mathlib

/-!
Verification of the N-body simulator (src/main.rs) against its specification.

Embedding conventions:
* `f32` values are modelled as exact rationals (`ℚ`); the float literals of the
  source (`0.008`, `0.5`, `255.0`, ...) are idealised as the exact rationals
  they denote.
* `f32::sqrt` (reached through `glam::Vec2::length` and `normalize`) is not
  rational-valued, so it is modelled as an explicit oracle parameter
  `s : SqrtFn`; theorems that depend on the square root being exact assume
  `sqrtOK s q` at the (finitely many) values where the code applies it.
* `glam::Vec2` is modelled as `ℚ × ℚ` with componentwise operations.
* Rust numeric casts (`as u32`, `as i32`, `as usize`) on floats truncate
  toward zero and saturate at the integer type's bounds; they are modelled by
  `rustU32`, `rustI32`, `rustUsize`.
* The side-effecting rasterizer is modelled by the ordered list of
  (pixel-x, pixel-y, buffer-index, pixel-value) writes it performs.
-/

/-- Model of `f32::sqrt` as an oracle: theorems assume exactness where used. -/
def SqrtFn : Type := ℚ → ℚ

/-- The oracle `s` returns the exact nonnegative square root at `q`. -/
def sqrtOK (s : SqrtFn) (q : ℚ) : Prop := 0 ≤ s q ∧ s q * s q = q

/-- Truncation toward zero, the rounding used by Rust float-to-int casts. -/
def ratTrunc (q : ℚ) : ℤ := if q < 0 then ⌈q⌉ else ⌊q⌋

/-- Rust `as u32` on an `f32`: truncate toward zero, saturate to `[0, 2^32-1]`. -/
def rustU32 (q : ℚ) : ℕ := min (ratTrunc q).toNat (2 ^ 32 - 1)

/-- Rust `as i32` on an `f32`: truncate toward zero, saturate to `i32` range. -/
def rustI32 (q : ℚ) : ℤ := max (-(2 ^ 31)) (min (2 ^ 31 - 1) (ratTrunc q))

/-- Rust `as usize` on an `f32`: truncate toward zero, saturate below at 0
(the upper saturation bound is never approached in this program). -/
def rustUsize (q : ℚ) : ℕ := (ratTrunc q).toNat

/-- Rust `f32::signum` restricted to the values reachable here (the code only
applies it to coordinates of magnitude `> bounds > 0`; `+0.0 ↦ 1` agrees). -/
def ratSignum (q : ℚ) : ℚ := if q < 0 then -1 else 1

/-- `glam::Vec2`, componentwise over exact rationals. -/
abbrev Vec2 : Type := ℚ × ℚ

namespace Vec2

/-- Squared Euclidean norm (`Vec2::length_squared`). -/
def lengthSq (v : Vec2) : ℚ := v.1 * v.1 + v.2 * v.2

/-- Scalar multiplication `c * v` (and `v * c`; exact multiplication is
commutative, unlike nothing relevant in f32 ordering here). -/
def smulV (c : ℚ) (v : Vec2) : Vec2 := (c * v.1, c * v.2)

/-- Division of a vector by a scalar, componentwise. -/
def vdiv (v : Vec2) (c : ℚ) : Vec2 := (v.1 / c, v.2 / c)

/-- `Vec2::length` through the sqrt oracle. -/
def lengthF (s : SqrtFn) (v : Vec2) : ℚ := s (lengthSq v)

/-- `Vec2::normalize`: divide by the length.  Note: *no* softening here; when
`lengthSq v = 0` the real code divides zero by zero (producing NaN), which the
rational model cannot represent — definedness is tracked by
`normalizeWellDefined` below. -/
def normalize (s : SqrtFn) (v : Vec2) : Vec2 := vdiv v (lengthF s v)

/-- The real `normalize` produces finite values exactly when the divisor
(the length) is nonzero, i.e. when the squared length is nonzero. -/
def normalizeWellDefined (v : Vec2) : Prop := lengthSq v ≠ 0

instance (v : Vec2) : Decidable (normalizeWellDefined v) := by
  unfold normalizeWellDefined
  infer_instance

end Vec2

open Vec2

/-! Simulation constants from the top of `main.rs`. -/

def BASE_G : ℚ := 100

def SOFTENING : ℚ := 5

def BASE_DT : ℚ := 8 / 1000

def NUM_BODIES : ℕ := 500

def WIDTH : ℕ := 3840

def HEIGHT : ℕ := 2160

def MIN_MASS : ℚ := 1

def MAX_MASS : ℚ := 80

def MAX_VELOCITY : ℚ := 800

def SPACE_SCALE : ℚ := 1

def CENTRAL_MASS : ℚ := 2000

/-- A body: position, velocity, mass, packed display color. -/
structure Body where
  pos : Vec2
  vel : Vec2
  mass : ℚ
  color : ℕ
deriving DecidableEq, Repr

instance : Inhabited Body := ⟨⟨(0, 0), (0, 0), 0, 0⟩⟩

/-- The color computation inlined in `Body::new` (main.rs lines 31-35):
`t = (mass - MIN_MASS)/(MAX_MASS - MIN_MASS)`, `r = (t*255.0) as u32`,
`g = ((1.0 - t*t)*200.0) as u32`, `b = ((1.0 - t)*255.0) as u32`,
packed as `(r << 16) | (g << 8) | b`. -/
def bodyColor (mass : ℚ) : ℕ :=
  let t : ℚ := (mass - MIN_MASS) / (MAX_MASS - MIN_MASS)
  let r : ℕ := rustU32 (t * 255)
  let g : ℕ := rustU32 ((1 - t * t) * 200)
  let b : ℕ := rustU32 ((1 - t) * 255)
  r <<< 16 ||| g <<< 8 ||| b

/-- `Body::new`. -/
def Body.new (pos vel : Vec2) (mass : ℚ) : Body :=
  { pos := pos, vel := vel, mass := mass, color := bodyColor mass }

/-- `Body::central`: origin, zero velocity, the fixed central mass. -/
def Body.central : Body := Body.new (0, 0) (0, 0) CENTRAL_MASS

/-- World half-extent on the x axis: `(WIDTH as f32 / 2.0) * SPACE_SCALE`. -/
def boundsX : ℚ := ((WIDTH : ℚ) / 2) * SPACE_SCALE

/-- World half-extent on the y axis: `(HEIGHT as f32 / 2.0) * SPACE_SCALE`. -/
def boundsY : ℚ := ((HEIGHT : ℚ) / 2) * SPACE_SCALE

/-- `Body::update` (main.rs lines 75-98), translated let-for-let:
acceleration, velocity kick, velocity ceiling, position drift, then the
per-axis wall bounce. -/
def Body.update (s : SqrtFn) (b : Body) (force : Vec2) (dt : ℚ) : Body :=
  let acc : Vec2 := vdiv force b.mass
  let vel1 : Vec2 := b.vel + smulV dt acc
  let vel2 : Vec2 :=
    if MAX_VELOCITY < lengthF s vel1 then smulV MAX_VELOCITY (normalize s vel1) else vel1
  let pos1 : Vec2 := b.pos + smulV dt vel2
  let velx : ℚ := if boundsX < |pos1.1| then vel2.1 * (-(1 / 2)) else vel2.1
  let posx : ℚ := if boundsX < |pos1.1| then ratSignum pos1.1 * boundsX else pos1.1
  let vely : ℚ := if boundsY < |pos1.2| then vel2.2 * (-(1 / 2)) else vel2.2
  let posy : ℚ := if boundsY < |pos1.2| then ratSignum pos1.2 * boundsY else pos1.2
  { pos := (posx, posy), vel := (velx, vely), mass := b.mass, color := b.color }

/-- `Body::radius`: fixed 25.0 for the central mass, else `sqrt(mass/MIN_MASS)*3`. -/
def Body.radius (s : SqrtFn) (b : Body) : ℚ :=
  if b.mass = CENTRAL_MASS then 25 else s (b.mass / MIN_MASS) * 3

/-- One pairwise gravitational contribution, exactly the loop body of
`calculate_forces`: `g * m1 * m2 * normalize(r) / dist_sq` with
`dist_sq = |r|^2 + SOFTENING^2`. -/
def pairForce (s : SqrtFn) (g : ℚ) (b1 b2 : Body) : Vec2 :=
  let r : Vec2 := b2.pos - b1.pos
  let dist_sq : ℚ := lengthSq r + SOFTENING * SOFTENING
  vdiv (smulV (g * b1.mass * b2.mass) (normalize s r)) dist_sq

/-- The inner accumulation loop of `calculate_forces` for the body at index
`i`.  The source skips the self-pair with `std::ptr::eq(body1, body2)`;
within one slice, pointer identity is exactly index identity, so the skip is
modelled as `j = i`. -/
def forceOn (s : SqrtFn) (g : ℚ) (bodies : List Body) (i : ℕ) : Vec2 :=
  (List.range bodies.length).foldl
    (fun acc j =>
      if j = i then acc
      else acc + pairForce s g (bodies.getD i default) (bodies.getD j default))
    (0, 0)

/-- `calculate_forces`: one net force per body, each computed from the
unmodified input array (the source's `par_iter().map(..).collect()` is a pure
per-index map; worker parallelism does not affect the value). -/
def calculate_forces (s : SqrtFn) (bodies : List Body) (g : ℚ) : List Vec2 :=
  (List.range bodies.length).map (forceOn s g bodies)

/-! Step scheduler (main.rs lines 217-229). -/

/-- `let steps_needed = ((elapsed * time_multiplier) / dt) as usize`. -/
def steps_needed (elapsed tm : ℚ) : ℕ := rustUsize (elapsed * tm / BASE_DT)

/-- `let substeps = (steps_needed as f32 / 4.0).ceil() as usize`. -/
def substepsOf (elapsed tm : ℚ) : ℕ :=
  rustUsize ((⌈(steps_needed elapsed tm : ℚ) / 4⌉ : ℤ) : ℚ)

/-- `let adjusted_dt = (elapsed * time_multiplier) / substeps as f32`. -/
def adjusted_dt (elapsed tm : ℚ) : ℚ := elapsed * tm / (substepsOf elapsed tm : ℚ)

/-- One substep: forces for the whole array, then every body updated in place
with its force (accumulate strictly before integrate). -/
def stepOnce (s : SqrtFn) (g dt : ℚ) (bodies : List Body) : List Body :=
  (bodies.zip (calculate_forces s bodies g)).map (fun bf => Body.update s bf.1 bf.2 dt)

/-- The per-frame physics block: if `substeps > 0`, run `substeps` substeps at
`adjusted_dt`; otherwise the body array is untouched this frame. -/
def frameUpdate (s : SqrtFn) (g elapsed tm : ℚ) (bodies : List Body) : List Body :=
  let n := substepsOf elapsed tm
  if 0 < n then (stepOnce s g (adjusted_dt elapsed tm))^[n] bodies else bodies

/-! Rasterizer (main.rs lines 130-165), modelled as the list of writes. -/

/-- Inclusive integer range `a..=b` as a list (empty when `b < a`). -/
def intRange (a b : ℤ) : List ℤ := (List.range (b + 1 - a).toNat).map (fun k => a + (k : ℤ))

/-- The glow-halo pixel value: each 8-bit channel of `color` scaled by
`1 - dist_sq / glow_sq` in f32 and cast back with `as u32`. -/
def glowPixel (color : ℕ) (dist_sq glow_sq : ℤ) : ℕ :=
  let gi : ℚ := 1 - (dist_sq : ℚ) / (glow_sq : ℚ)
  let r : ℕ := rustU32 (((color >>> 16) &&& 0xFF : ℕ) * gi)
  let g : ℕ := rustU32 (((color >>> 8) &&& 0xFF : ℕ) * gi)
  let b : ℕ := rustU32 ((color &&& 0xFF : ℕ) * gi)
  r <<< 16 ||| g <<< 8 ||| b

/-- `draw_circle` as the ordered list of `(px, py, index, value)` buffer
writes.  The guard `0 ≤ px < WIDTH ∧ 0 ≤ py < HEIGHT` precedes every write,
exactly as in the source; under that guard the source's `as usize` casts are
value-preserving, so the written index is `py * WIDTH + px`. -/
def drawCircleWrites (center : Vec2) (radius : ℚ) (color : ℕ) (is_central : Bool) :
    List (ℤ × ℤ × ℕ × ℕ) :=
  let x_center : ℤ := rustI32 (center.1 / SPACE_SCALE + (WIDTH : ℚ) / 2)
  let y_center : ℤ := rustI32 (center.2 / SPACE_SCALE + (HEIGHT : ℚ) / 2)
  let r : ℤ := rustI32 radius
  let glow_radius : ℤ := if is_central then r * 2 else r + 2
  let r_squared : ℤ := r * r
  let glow_squared : ℤ := glow_radius * glow_radius
  (intRange (-glow_radius) glow_radius).flatMap (fun y =>
    (intRange (-glow_radius) glow_radius).filterMap (fun x =>
      let dist_sq : ℤ := x * x + y * y
      if dist_sq ≤ glow_squared then
        let px : ℤ := x_center + x
        let py : ℤ := y_center + y
        if 0 ≤ px ∧ px < (WIDTH : ℤ) ∧ 0 ≤ py ∧ py < (HEIGHT : ℤ) then
          let idx : ℕ := py.toNat * WIDTH + px.toNat
          if dist_sq ≤ r_squared then some (px, py, idx, color)
          else some (px, py, idx, glowPixel color dist_sq glow_squared)
        else none
      else none))

/-- The drawing phase of the main loop (main.rs lines 233-238): every
non-central body (`&bodies[1..]`) drawn with its own stored color, then the
central body drawn last with the hard-coded color `0xFFAA33`. -/
def renderFrameWrites (s : SqrtFn) (bodies : List Body) : List (ℤ × ℤ × ℕ × ℕ) :=
  ((bodies.drop 1).flatMap
    (fun b => drawCircleWrites b.pos (Body.radius s b) b.color false))
    ++ drawCircleWrites (bodies.getD 0 default).pos
        (Body.radius s (bodies.getD 0 default)) 0xFFAA33 true

/-! Spec-side definitions, written from the specification's words, used as the
comparison targets of the refinement claims. -/

/-- The pairwise force formula as the spec states it:
`g * mass_i * mass_j * normalize(pos_j - pos_i) / (|pos_j - pos_i|^2 + softening^2)`. -/
def pairForceSpec (s : SqrtFn) (g : ℚ) (bi bj : Body) : Vec2 :=
  vdiv (smulV (g * bi.mass * bj.mass) (normalize s (bj.pos - bi.pos)))
    (lengthSq (bj.pos - bi.pos) + SOFTENING * SOFTENING)

/-- Spec step 1 of the integrator: `velocity += (force / mass) * dt`. -/
def velStep (b : Body) (force : Vec2) (dt : ℚ) : Vec2 :=
  b.vel + smulV dt (vdiv force b.mass)

/-- Spec step 2: clamp the velocity magnitude to the fixed ceiling by
rescaling to exactly the ceiling, preserving direction. -/
def clampVel (s : SqrtFn) (v : Vec2) : Vec2 :=
  if MAX_VELOCITY < lengthF s v then smulV MAX_VELOCITY (normalize s v) else v

/-- The clamped velocity the integrator drifts with. -/
def postVel (s : SqrtFn) (b : Body) (force : Vec2) (dt : ℚ) : Vec2 :=
  clampVel s (velStep b force dt)

/-- Spec step 3: the position after `position += velocity * dt`, before the
boundary handling. -/
def postPos (s : SqrtFn) (b : Body) (force : Vec2) (dt : ℚ) : Vec2 :=
  b.pos + smulV dt (postVel s b force dt)

/-- Spec boundary handling for one axis: on a crossing, clamp the coordinate
to exactly the boundary (sign preserved) and invert-and-halve the velocity
component; returns (position, velocity). -/
def bounceAxis (bound p v : ℚ) : ℚ × ℚ :=
  if bound < |p| then (ratSignum p * bound, v * (-(1 / 2))) else (p, v)

/-- Spec boundary handling, the two axes treated independently. -/
def bounceSpec (b : Body) : Body :=
  { pos := ((bounceAxis boundsX b.pos.1 b.vel.1).1, (bounceAxis boundsY b.pos.2 b.vel.2).1),
    vel := ((bounceAxis boundsX b.pos.1 b.vel.1).2, (bounceAxis boundsY b.pos.2 b.vel.2).2),
    mass := b.mass, color := b.color }

/-- The color mapping as the spec states it: each channel interpolated
*linearly* in mass between the cold endpoint (at `MIN_MASS`) and the hot
endpoint (at `MAX_MASS`), packed as 24-bit RGB. -/
def colorLerpSpec (mass : ℚ) : ℕ :=
  let t : ℚ := (mass - MIN_MASS) / (MAX_MASS - MIN_MASS)
  let r : ℕ := rustU32 (t * 255)
  let g : ℕ := rustU32 ((1 - t) * 200)
  let b : ℕ := rustU32 ((1 - t) * 255)
  r <<< 16 ||| g <<< 8 ||| b

/-! Helper lemmas. -/

theorem lengthSq_nonneg (v : Vec2) : 0 ≤ lengthSq v :=
  add_nonneg (mul_self_nonneg v.1) (mul_self_nonneg v.2)

theorem lengthSq_eq_zero_iff (v : Vec2) : lengthSq v = 0 ↔ v = (0, 0) := by
  unfold lengthSq
  constructor
  · intro h
    have h1 : v.1 = 0 := by nlinarith [mul_self_nonneg v.1, mul_self_nonneg v.2]
    have h2 : v.2 = 0 := by nlinarith [mul_self_nonneg v.1, mul_self_nonneg v.2]
    exact Prod.ext h1 h2
  · intro h
    rw [h]
    norm_num

theorem lengthSq_smulV (c : ℚ) (v : Vec2) :
    lengthSq (smulV c v) = c ^ 2 * lengthSq v := by
  unfold lengthSq smulV
  ring

theorem lengthSq_vdiv (v : Vec2) (d : ℚ) :
    lengthSq (vdiv v d) = lengthSq v / (d * d) := by
  unfold lengthSq vdiv
  rw [div_mul_div_comm, div_mul_div_comm, div_add_div_same]

theorem rustU32_lt_256 {q : ℚ} (h : q < 256) : rustU32 q < 256 := by
  unfold rustU32 ratTrunc
  split
  · rename_i hq
    have hc : (⌈q⌉ : ℤ) ≤ 0 := Int.ceil_le.mpr (by exact_mod_cast le_of_lt hq)
    omega
  · have hf : (⌊q⌋ : ℤ) < 256 := by
      rw [Int.floor_lt]
      exact_mod_cast h
    omega

theorem pack_channels (r g b : ℕ) (hg : g < 256) (hb : b < 256) :
    r <<< 16 ||| g <<< 8 ||| b = r * 65536 + g * 256 + b := by
  have hgb : (2 : ℕ) ^ 8 * g + b = 2 ^ 8 * g ||| b :=
    Nat.mul_add_lt_is_or hb g
  have hbound : (2 : ℕ) ^ 8 * g + b < 2 ^ 16 := by
    have : (2 : ℕ) ^ 8 * g + b ≤ 2 ^ 8 * 255 + 255 := by
      have := Nat.mul_le_mul_left (2 ^ 8) (Nat.lt_succ_iff.mp hg)
      omega
    omega
  have hr : (2 : ℕ) ^ 16 * r + (2 ^ 8 * g + b) = 2 ^ 16 * r ||| (2 ^ 8 * g + b) :=
    Nat.mul_add_lt_is_or hbound r
  calc r <<< 16 ||| g <<< 8 ||| b
      = 2 ^ 16 * r ||| (2 ^ 8 * g ||| b) := by
        rw [Nat.or_assoc, Nat.shiftLeft_eq, Nat.shiftLeft_eq, Nat.mul_comm r, Nat.mul_comm g]
    _ = 2 ^ 16 * r ||| (2 ^ 8 * g + b) := by rw [hgb]
    _ = 2 ^ 16 * r + (2 ^ 8 * g + b) := hr.symm
    _ = r * 65536 + g * 256 + b := by ring

theorem foldl_skip_eq_sum (f : ℕ → Vec2) (i : ℕ) :
    ∀ (n : ℕ) (a : Vec2),
      (List.range n).foldl (fun acc j => if j = i then acc else acc + f j) a
        = a + ∑ j ∈ (Finset.range n).erase i, f j := by
  intro n
  induction n with
  | zero => intro a; simp
  | succ n ih =>
    intro a
    rw [List.range_succ, List.foldl_append, ih]
    by_cases hni : n = i
    · subst hni
      rw [Finset.range_succ, Finset.erase_insert (Finset.not_mem_range_self)]
      simp [Finset.erase_eq_self.mpr Finset.not_mem_range_self]
    · have hmem : n ∉ (Finset.range n).erase i := by
        simp [Finset.mem_erase]
      rw [Finset.range_succ, Finset.erase_insert_of_ne hni, Finset.sum_insert hmem]
      simp only [List.foldl_cons, List.foldl_nil, if_neg hni]
      abel

theorem getD_map_range {α : Type} (F : ℕ → α) (n i : ℕ) (d : α) (hi : i < n) :
    (((List.range n).map F).getD i d) = F i := by
  rw [List.getD_eq_getElem?_getD, List.getElem?_map, List.getElem?_range hi]
  rfl

/-! Claim C1: the Force Accumulator. -/

/-- C1: `calculate_forces` returns one net force per body; the force on body
`i` is the sum, over every other index `j ≠ i` (self-interaction excluded by
identity — i.e. by index, exactly as the source's `std::ptr::eq` skip — not by
position equality, so a distinct body at a coincident position still
contributes a summand), of the spec's pairwise formula
`g * m_i * m_j * normalize(p_j - p_i) / (|p_j - p_i|^2 + softening^2)`,
computed from the unmodified input array only (the model is a pure function
of the input list). -/
theorem c1_calculate_forces_correct (s : SqrtFn) (g : ℚ) (bodies : List Body) :
    (calculate_forces s bodies g).length = bodies.length ∧
    ∀ i, i < bodies.length →
      (calculate_forces s bodies g).getD i (0, 0)
        = ∑ j ∈ (Finset.range bodies.length).erase i,
            pairForceSpec s g (bodies.getD i default) (bodies.getD j default) := by
  constructor
  · simp [calculate_forces]
  · intro i hi
    rw [calculate_forces, getD_map_range _ _ _ _ hi, forceOn, foldl_skip_eq_sum]
    rw [Prod.mk_zero_zero, zero_add]
    exact Finset.sum_congr rfl (fun j _ => rfl)

/-- Concrete instance of C1: two distinct bodies at the *same* position; the
skipped pair is exactly the self-pair, and the force evaluates. -/
theorem c1_calculate_forces_correct_witness :
    0 < ([Body.new (1, 1) (0, 0) 2, Body.new (1, 1) (3, 0) 4] : List Body).length ∧
    (calculate_forces (fun _ => 0) [Body.new (1, 1) (0, 0) 2, Body.new (1, 1) (3, 0) 4] 100).getD 0 (0, 0)
      = ∑ j ∈ (Finset.range ([Body.new (1, 1) (0, 0) 2, Body.new (1, 1) (3, 0) 4] : List Body).length).erase 0,
          pairForceSpec (fun _ => 0) 100
            (([Body.new (1, 1) (0, 0) 2, Body.new (1, 1) (3, 0) 4] : List Body).getD 0 default)
            (([Body.new (1, 1) (0, 0) 2, Body.new (1, 1) (3, 0) 4] : List Body).getD j default) :=
  ⟨by decide,
   (c1_calculate_forces_correct (fun _ => 0) 100
      [Body.new (1, 1) (0, 0) 2, Body.new (1, 1) (3, 0) 4]).2 0 (by decide)⟩

/-! Claim C2: the Integrator's step order and the velocity ceiling. -/

/-- The monolithic `Body::update` agrees with the spec's decomposition:
velocity kick, then clamp, then drift, then the per-axis bounce. -/
theorem update_eq_bounceSpec (s : SqrtFn) (b : Body) (f : Vec2) (dt : ℚ) :
    Body.update s b f dt
      = bounceSpec { pos := postPos s b f dt, vel := postVel s b f dt,
                     mass := b.mass, color := b.color } := by
  dsimp only [Body.update, bounceSpec, bounceAxis, postPos, postVel, clampVel, velStep]
  split_ifs <;> rfl

/-- The clamped velocity never exceeds the ceiling (squared formulation), and
in the clamping branch it reaches it exactly; requires the sqrt oracle to be
exact at the one value where the code takes a square root. -/
theorem clampVel_lengthSq (s : SqrtFn) (v : Vec2) (hs : sqrtOK s (lengthSq v)) :
    lengthSq (clampVel s v) ≤ MAX_VELOCITY ^ 2 ∧
    (MAX_VELOCITY < lengthF s v → lengthSq (clampVel s v) = MAX_VELOCITY ^ 2) := by
  obtain ⟨hs0, hs1⟩ := hs
  have hMV : MAX_VELOCITY = 800 := rfl
  unfold clampVel
  split_ifs with h
  · have hpos : (0 : ℚ) < lengthF s v := lt_trans (by rw [hMV]; norm_num) h
    have hLpos : (0 : ℚ) < lengthSq v := by
      have : lengthF s v * lengthF s v = lengthSq v := hs1
      nlinarith
    have hkey : lengthSq (smulV MAX_VELOCITY (normalize s v)) = MAX_VELOCITY ^ 2 := by
      rw [lengthSq_smulV]
      unfold Vec2.normalize Vec2.lengthF
      rw [lengthSq_vdiv, hs1, div_self (ne_of_gt hLpos), mul_one]
    exact ⟨le_of_eq hkey, fun _ => hkey⟩
  · have hle : lengthF s v ≤ MAX_VELOCITY := le_of_not_lt h
    constructor
    · have hsq : lengthF s v * lengthF s v = lengthSq v := hs1
      have hge : (0 : ℚ) ≤ lengthF s v := hs0
      rw [hMV] at hle ⊢
      nlinarith [hsq, hge, hle]
    · intro hcontra
      exact absurd hcontra h

/-- The wall bounce never increases the speed (each affected component is
halved in magnitude). -/
theorem bounce_vel_lengthSq_le (b : Body) :
    lengthSq (bounceSpec b).vel ≤ lengthSq b.vel := by
  unfold bounceSpec bounceAxis lengthSq
  split_ifs <;> dsimp only <;>
    nlinarith [mul_self_nonneg b.vel.1, mul_self_nonneg b.vel.2]

/-- C2: `Body::update` performs, in order, the velocity kick
`velocity += (force/mass)*dt`, the velocity clamp (on overflow the velocity is
rescaled to exactly `MAX_VELOCITY`, preserving direction), the position drift
`position += velocity*dt`, and then the wall bounce; the speed immediately
after the call never exceeds `MAX_VELOCITY` (stated on squares, which is
equivalent for nonnegative magnitudes). -/
theorem c2_integrator_order_and_ceiling (s : SqrtFn) (b : Body) (f : Vec2) (dt : ℚ)
    (hs : sqrtOK s (lengthSq (velStep b f dt))) :
    Body.update s b f dt
      = bounceSpec { pos := b.pos + smulV dt (clampVel s (velStep b f dt)),
                     vel := clampVel s (velStep b f dt),
                     mass := b.mass, color := b.color } ∧
    (MAX_VELOCITY < lengthF s (velStep b f dt) →
      lengthSq (postVel s b f dt) = MAX_VELOCITY ^ 2 ∧
      ∃ c : ℚ, 0 < c ∧ postVel s b f dt = smulV c (velStep b f dt)) ∧
    lengthSq (Body.update s b f dt).vel ≤ MAX_VELOCITY ^ 2 := by
  refine ⟨update_eq_bounceSpec s b f dt, ?_, ?_⟩
  · intro h
    refine ⟨(clampVel_lengthSq s (velStep b f dt) hs).2 h, ?_⟩
    refine ⟨MAX_VELOCITY / lengthF s (velStep b f dt), ?_, ?_⟩
    · have h0 : (0 : ℚ) < MAX_VELOCITY := by norm_num [MAX_VELOCITY]
      exact div_pos h0 (lt_trans h0 h)
    · unfold postVel clampVel
      rw [if_pos h]
      unfold Vec2.normalize Vec2.vdiv Vec2.smulV
      exact Prod.ext (by ring) (by ring)
  · rw [update_eq_bounceSpec s b f dt]
    exact le_trans (bounce_vel_lengthSq_le _) (clampVel_lengthSq s (velStep b f dt) hs).1

/-- Concrete instance of C2: a body moving at speed 1000 (with a sqrt oracle
exact at the one value queried) satisfies the post-update speed ceiling. -/
theorem c2_integrator_order_and_ceiling_witness :
    sqrtOK (fun q => if q = 1000000 then 1000 else 0)
      (lengthSq (velStep (Body.new (0, 0) (600, 800) 2) (0, 0) 0)) ∧
    lengthSq (Body.update (fun q => if q = 1000000 then 1000 else 0)
        (Body.new (0, 0) (600, 800) 2) (0, 0) 0).vel ≤ MAX_VELOCITY ^ 2 := by
  have hls : lengthSq (velStep (Body.new (0, 0) (600, 800) 2) (0, 0) 0) = 1000000 := by
    norm_num [velStep, Body.new, Vec2.lengthSq, Vec2.smulV, Vec2.vdiv, Prod.mk_add_mk]
  have hok : sqrtOK (fun q => if q = 1000000 then 1000 else 0)
      (lengthSq (velStep (Body.new (0, 0) (600, 800) 2) (0, 0) 0)) := by
    unfold sqrtOK
    rw [hls]
    norm_num
  exact ⟨hok,
    (c2_integrator_order_and_ceiling (fun q => if q = 1000000 then 1000 else 0)
      (Body.new (0, 0) (600, 800) 2) (0, 0) 0 hok).2.2⟩

/-! Claim C3: position bounds and boundary reflection. -/

/-- Clamping to the signed boundary lands exactly on the boundary. -/
theorem abs_ratSignum_mul (p c : ℚ) (hc : 0 ≤ c) : |ratSignum p * c| = c := by
  unfold ratSignum
  split_ifs
  · rw [neg_one_mul, abs_neg, abs_of_nonneg hc]
  · rw [one_mul, abs_of_nonneg hc]

/-- Complete case analysis of the boundary handling at the end of
`Body::update`: the resulting position is inside the world rectangle, and on
each axis either the boundary was crossed (coordinate clamped to the signed
boundary, velocity component inverted and halved) or the axis is untouched. -/
theorem update_bounce_cases (s : SqrtFn) (b : Body) (f : Vec2) (dt : ℚ) :
    |(Body.update s b f dt).pos.1| ≤ boundsX ∧
    |(Body.update s b f dt).pos.2| ≤ boundsY ∧
    (boundsX < |(postPos s b f dt).1| →
      (Body.update s b f dt).pos.1 = ratSignum (postPos s b f dt).1 * boundsX ∧
      (Body.update s b f dt).vel.1 = (postVel s b f dt).1 * (-(1 / 2)) ∧
      |(Body.update s b f dt).pos.1| = boundsX) ∧
    (¬ boundsX < |(postPos s b f dt).1| →
      (Body.update s b f dt).pos.1 = (postPos s b f dt).1 ∧
      (Body.update s b f dt).vel.1 = (postVel s b f dt).1) ∧
    (boundsY < |(postPos s b f dt).2| →
      (Body.update s b f dt).pos.2 = ratSignum (postPos s b f dt).2 * boundsY ∧
      (Body.update s b f dt).vel.2 = (postVel s b f dt).2 * (-(1 / 2)) ∧
      |(Body.update s b f dt).pos.2| = boundsY) ∧
    (¬ boundsY < |(postPos s b f dt).2| →
      (Body.update s b f dt).pos.2 = (postPos s b f dt).2 ∧
      (Body.update s b f dt).vel.2 = (postVel s b f dt).2) := by
  have hbx : (0 : ℚ) ≤ boundsX := by norm_num [boundsX, WIDTH, SPACE_SCALE]
  have hby : (0 : ℚ) ≤ boundsY := by norm_num [boundsY, HEIGHT, SPACE_SCALE]
  have k1 : |ratSignum (postPos s b f dt).1 * boundsX| = boundsX :=
    abs_ratSignum_mul _ _ hbx
  have k2 : |ratSignum (postPos s b f dt).2 * boundsY| = boundsY :=
    abs_ratSignum_mul _ _ hby
  rw [update_eq_bounceSpec s b f dt]
  unfold bounceSpec bounceAxis
  dsimp only
  split_ifs with h1 h2 h3
  · exact ⟨k1.le, k2.le, fun _ => ⟨rfl, rfl, k1⟩, fun h => absurd h1 h,
      fun _ => ⟨rfl, rfl, k2⟩, fun h => absurd h2 h⟩
  · exact ⟨k1.le, le_of_not_lt h2, fun _ => ⟨rfl, rfl, k1⟩, fun h => absurd h1 h,
      fun h => absurd h h2, fun _ => ⟨rfl, rfl⟩⟩
  · exact ⟨le_of_not_lt h1, k2.le, fun h => absurd h h1, fun _ => ⟨rfl, rfl⟩,
      fun _ => ⟨rfl, rfl, k2⟩, fun h => absurd h3 h⟩
  · exact ⟨le_of_not_lt h1, le_of_not_lt h3, fun h => absurd h h1, fun _ => ⟨rfl, rfl⟩,
      fun h => absurd h h3, fun _ => ⟨rfl, rfl⟩⟩

/-- C3: immediately after any `Body::update` the position is inside the world
rectangle exactly (`|x| ≤ boundsX`, `|y| ≤ boundsY` with
`bounds = (WIDTH/2, HEIGHT/2) * SPACE_SCALE`); on a crossing, that axis's
position coordinate is clamped to exactly the sign-preserving boundary and
its velocity component is inverted and scaled by `0.5`; the axes are handled
independently in the same update (a non-crossing axis is left untouched). -/
theorem c3_position_in_bounds (s : SqrtFn) (b : Body) (f : Vec2) (dt : ℚ) :
    |(Body.update s b f dt).pos.1| ≤ boundsX ∧
    |(Body.update s b f dt).pos.2| ≤ boundsY ∧
    (boundsX < |(postPos s b f dt).1| →
      (Body.update s b f dt).pos.1 = ratSignum (postPos s b f dt).1 * boundsX ∧
      (Body.update s b f dt).vel.1 = (postVel s b f dt).1 * (-(1 / 2)) ∧
      |(Body.update s b f dt).pos.1| = boundsX) ∧
    (¬ boundsX < |(postPos s b f dt).1| →
      (Body.update s b f dt).pos.1 = (postPos s b f dt).1 ∧
      (Body.update s b f dt).vel.1 = (postVel s b f dt).1) ∧
    (boundsY < |(postPos s b f dt).2| →
      (Body.update s b f dt).pos.2 = ratSignum (postPos s b f dt).2 * boundsY ∧
      (Body.update s b f dt).vel.2 = (postVel s b f dt).2 * (-(1 / 2)) ∧
      |(Body.update s b f dt).pos.2| = boundsY) ∧
    (¬ boundsY < |(postPos s b f dt).2| →
      (Body.update s b f dt).pos.2 = (postPos s b f dt).2 ∧
      (Body.update s b f dt).vel.2 = (postVel s b f dt).2) :=
  update_bounce_cases s b f dt

/-- Concrete instance of C3: the bound holds at a specific state. -/
theorem c3_position_in_bounds_witness :
    |(Body.update (fun _ => 0) (Body.new (0, 0) (0, 0) 1) (0, 0) 0).pos.1| ≤ boundsX ∧
    |(Body.update (fun _ => 0) (Body.new (0, 0) (0, 0) 1) (0, 0) 0).pos.2| ≤ boundsY :=
  ⟨(c3_position_in_bounds (fun _ => 0) (Body.new (0, 0) (0, 0) 1) (0, 0) 0).1,
   (c3_position_in_bounds (fun _ => 0) (Body.new (0, 0) (0, 0) 1) (0, 0) 0).2.1⟩

/-! Claims C4 and C5: the step scheduler. -/

/-- Truncation is the identity on integers. -/
theorem ratTrunc_intCast (z : ℤ) : ratTrunc ((z : ℤ) : ℚ) = z := by
  unfold ratTrunc
  split_ifs
  · exact Int.ceil_intCast z
  · exact Int.floor_intCast z

/-- The `usize` cast is the identity on cast integers (up to `toNat`). -/
theorem rustUsize_intCast (z : ℤ) : rustUsize ((z : ℤ) : ℚ) = z.toNat := by
  unfold rustUsize
  rw [ratTrunc_intCast]

/-- The `usize` cast is the identity on cast naturals. -/
theorem rustUsize_natCast (n : ℕ) : rustUsize ((n : ℕ) : ℚ) = n := by
  have h := rustUsize_intCast (n : ℤ)
  push_cast at h
  simpa using h

/-- C4: when `substeps > 0`, the frame's total simulated time
`substeps * adjusted_dt` equals `elapsed * time_multiplier` exactly
(independently of which substep count was chosen, since
`adjusted_dt = (elapsed * time_multiplier) / substeps`); when
`substeps = 0`, the frame performs no physics update at all. -/
theorem c4_total_simulated_time (s : SqrtFn) (g elapsed tm : ℚ) (bodies : List Body) :
    (0 < substepsOf elapsed tm →
      (substepsOf elapsed tm : ℚ) * adjusted_dt elapsed tm = elapsed * tm) ∧
    (substepsOf elapsed tm = 0 → frameUpdate s g elapsed tm bodies = bodies) := by
  constructor
  · intro h
    have hne : ((substepsOf elapsed tm : ℕ) : ℚ) ≠ 0 := by
      exact_mod_cast Nat.pos_iff_ne_zero.mp h
    unfold adjusted_dt
    rw [mul_comm, div_mul_cancel₀ _ hne]
  · intro h
    simp [frameUpdate, h]

/-- Evaluation of the scheduler at the spec's worked example:
`elapsed = 0.04`, `time_multiplier = 2`, so `steps_needed = 10` and
`substeps = ceil(10/4) = 3`. -/
theorem substepsOf_example : steps_needed (1 / 25) 2 = 10 ∧ substepsOf (1 / 25) 2 = 3 := by
  have h1 : (1 / 25 : ℚ) * 2 / BASE_DT = ((10 : ℕ) : ℚ) := by
    norm_num [BASE_DT]
  have h2 : steps_needed (1 / 25) 2 = 10 := by
    unfold steps_needed
    rw [h1, rustUsize_natCast]
  refine ⟨h2, ?_⟩
  have h3 : (⌈((10 : ℕ) : ℚ) / 4⌉ : ℤ) = 3 := by
    rw [Int.ceil_eq_iff]
    norm_num
  unfold substepsOf
  rw [h2]
  rw [show ((10 : ℕ) : ℚ) = (((10 : ℕ) : ℕ) : ℚ) from rfl] at h3
  rw [h3, rustUsize_intCast]
  rfl

/-- Concrete instance of C4, at the spec's own worked example. -/
theorem c4_total_simulated_time_witness :
    0 < substepsOf (1 / 25) 2 ∧
    (substepsOf (1 / 25) 2 : ℚ) * adjusted_dt (1 / 25) 2 = (1 / 25) * 2 :=
  ⟨by rw [substepsOf_example.2]; norm_num,
   (c4_total_simulated_time (fun _ => 0) 100 (1 / 25) 2 []).1
     (by rw [substepsOf_example.2]; norm_num)⟩

/-- C5 counterexample: the substep count has *no* fixed ceiling — for every
candidate ceiling `C` there is an (arbitrarily large) elapsed time at which
the scheduler performs more than `C` substeps.  The division by 4 only
quarters the desired step count, it does not cap it. -/
theorem c5_no_fixed_ceiling :
    ¬ ∃ C : ℕ, ∀ elapsed tm : ℚ, 0 ≤ elapsed → 0 ≤ tm →
        substepsOf elapsed tm ≤ C := by
  rintro ⟨C, hC⟩
  have hBD0 : (BASE_DT : ℚ) ≠ 0 := by norm_num [BASE_DT]
  have he : (0 : ℚ) ≤ ((4 * (C + 1) : ℕ) : ℚ) * BASE_DT := by
    have : (0 : ℚ) ≤ ((4 * (C + 1) : ℕ) : ℚ) := Nat.cast_nonneg _
    have hb : (0 : ℚ) ≤ BASE_DT := by norm_num [BASE_DT]
    exact mul_nonneg this hb
  have h1 := hC (((4 * (C + 1) : ℕ) : ℚ) * BASE_DT) 1 he (by norm_num)
  have harg : ((4 * (C + 1) : ℕ) : ℚ) * BASE_DT * 1 / BASE_DT = ((4 * (C + 1) : ℕ) : ℚ) := by
    rw [mul_one, mul_div_cancel_right₀ _ hBD0]
  have hsteps : steps_needed (((4 * (C + 1) : ℕ) : ℚ) * BASE_DT) 1 = 4 * (C + 1) := by
    unfold steps_needed
    rw [harg, rustUsize_natCast]
  have hdiv : ((4 * (C + 1) : ℕ) : ℚ) / 4 = (((C + 1) : ℕ) : ℚ) := by
    push_cast
    ring
  have hceil : (⌈((4 * (C + 1) : ℕ) : ℚ) / 4⌉ : ℤ) = ((C + 1 : ℕ) : ℤ) := by
    rw [hdiv, Int.ceil_natCast]
  have hsub : substepsOf (((4 * (C + 1) : ℕ) : ℚ) * BASE_DT) 1 = C + 1 := by
    unfold substepsOf
    rw [hsteps, hceil, rustUsize_intCast]
    simp
  rw [hsub] at h1
  omega

/-- C5 (amended): the scheduler formulas as stated hold —
`desired_steps = floor(elapsed*tm / base_dt)` and
`substeps = ceil(desired_steps / 4)` — and the division by 4 bounds the
substep count *relative to the desired count* (`substeps ≤ desired_steps` and
`4*substeps ≤ desired_steps + 3`), but there is no fixed absolute ceiling
(see the counterexample). -/
theorem c5_scheduler_formulas (elapsed tm : ℚ) (h : 0 ≤ elapsed * tm) :
    (steps_needed elapsed tm : ℤ) = ⌊elapsed * tm / BASE_DT⌋ ∧
    (substepsOf elapsed tm : ℤ) = ⌈(steps_needed elapsed tm : ℚ) / 4⌉ ∧
    substepsOf elapsed tm ≤ steps_needed elapsed tm ∧
    4 * substepsOf elapsed tm ≤ steps_needed elapsed tm + 3 := by
  have hBD : (0 : ℚ) < BASE_DT := by norm_num [BASE_DT]
  have harg : 0 ≤ elapsed * tm / BASE_DT := div_nonneg h hBD.le
  have hfl : 0 ≤ ⌊elapsed * tm / BASE_DT⌋ := Int.floor_nonneg.mpr harg
  have h1 : (steps_needed elapsed tm : ℤ) = ⌊elapsed * tm / BASE_DT⌋ := by
    unfold steps_needed rustUsize ratTrunc
    rw [if_neg (not_lt.mpr harg)]
    exact Int.toNat_of_nonneg hfl
  have hceil0 : 0 ≤ ⌈((steps_needed elapsed tm : ℕ) : ℚ) / 4⌉ := by
    apply Int.ceil_nonneg
    positivity
  have h2 : (substepsOf elapsed tm : ℤ) = ⌈((steps_needed elapsed tm : ℕ) : ℚ) / 4⌉ := by
    unfold substepsOf
    rw [rustUsize_intCast]
    exact Int.toNat_of_nonneg hceil0
  have hle_n : ⌈((steps_needed elapsed tm : ℕ) : ℚ) / 4⌉ ≤ ((steps_needed elapsed tm : ℕ) : ℤ) := by
    apply Int.ceil_le.mpr
    push_cast
    have h0 : (0 : ℚ) ≤ ((steps_needed elapsed tm : ℕ) : ℚ) := Nat.cast_nonneg _
    linarith
  have hub : (⌈((steps_needed elapsed tm : ℕ) : ℚ) / 4⌉ : ℚ)
      < ((steps_needed elapsed tm : ℕ) : ℚ) / 4 + 1 := Int.ceil_lt_add_one _
  refine ⟨h1, h2, ?_, ?_⟩
  · have := h2 ▸ hle_n
    exact_mod_cast this
  · have h4 : (4 * (substepsOf elapsed tm : ℚ)) < ((steps_needed elapsed tm : ℕ) : ℚ) + 4 := by
      have hq : ((substepsOf elapsed tm : ℕ) : ℚ)
          = ((⌈((steps_needed elapsed tm : ℕ) : ℚ) / 4⌉ : ℤ) : ℚ) := by
        exact_mod_cast congrArg (fun z : ℤ => (z : ℚ)) h2
      rw [hq]
      linarith
    have h5 : (4 * substepsOf elapsed tm : ℤ) < (steps_needed elapsed tm : ℤ) + 4 := by
      exact_mod_cast h4
    omega

/-- Concrete instance of C5 (amended), at the spec's worked example. -/
theorem c5_scheduler_formulas_witness :
    (0 : ℚ) ≤ (1 / 25) * 2 ∧
    substepsOf (1 / 25) 2 ≤ steps_needed (1 / 25) 2 ∧
    4 * substepsOf (1 / 25) 2 ≤ steps_needed (1 / 25) 2 + 3 :=
  ⟨by norm_num,
   (c5_scheduler_formulas (1 / 25) 2 (by norm_num)).2.2.1,
   (c5_scheduler_formulas (1 / 25) 2 (by norm_num)).2.2.2⟩

/-! Claim C9: the boundary-reflection scenario. -/

/-- C9: a body at `(bounds_x - 1, 0)` with velocity `(100, 0)`, zero applied
force, and any `dt` large enough that `pos.x + 100*dt` exceeds `bounds_x`
ends one `Body::update` with `pos.x = bounds_x` exactly and
`vel.x = -50` (reversed, half magnitude); the y axis is untouched.
(The sqrt oracle is assumed exact at `10000 = |(100,0)|^2`, the only value
the update queries; the mass must be nonzero, as guaranteed by the mass
invariant.) -/
theorem c9_reflection_scenario (s : SqrtFn) (m dt : ℚ) (co : ℕ)
    (_hm : m ≠ 0) (hs : sqrtOK s 10000)
    (hdt : boundsX < boundsX - 1 + 100 * dt) :
    (Body.update s ⟨(boundsX - 1, 0), (100, 0), m, co⟩ (0, 0) dt).pos = (boundsX, 0) ∧
    (Body.update s ⟨(boundsX - 1, 0), (100, 0), m, co⟩ (0, 0) dt).vel = (-50, 0) := by
  obtain ⟨hs0, hs1⟩ := hs
  have h100 : s 10000 = 100 := by
    have hfact : (s 10000 - 100) * (s 10000 + 100) = 0 := by nlinarith
    rcases mul_eq_zero.mp hfact with h | h
    · linarith
    · linarith
  have hbx : boundsX = 1920 := by norm_num [boundsX, WIDTH, SPACE_SCALE]
  set B : Body := ⟨(boundsX - 1, 0), (100, 0), m, co⟩ with hB
  have hvs : velStep B (0, 0) dt = (100, 0) := by
    show B.vel + smulV dt (vdiv (0, 0) B.mass) = (100, 0)
    unfold Vec2.smulV Vec2.vdiv
    rw [hB]
    rw [Prod.mk_add_mk]
    norm_num
  have hlsq : lengthSq ((100 : ℚ), (0 : ℚ)) = 10000 := by
    unfold Vec2.lengthSq
    norm_num
  have hpv : postVel s B (0, 0) dt = (100, 0) := by
    unfold postVel clampVel
    rw [hvs]
    rw [if_neg]
    unfold Vec2.lengthF
    rw [hlsq, h100]
    norm_num [MAX_VELOCITY]
  have hpp : postPos s B (0, 0) dt = (boundsX - 1 + dt * 100, 0) := by
    unfold postPos
    rw [hpv]
    show B.pos + smulV dt (100, 0) = _
    unfold Vec2.smulV
    rw [hB]
    rw [Prod.mk_add_mk]
    norm_num
  have hppx : (postPos s B (0, 0) dt).1 = boundsX - 1 + dt * 100 := by rw [hpp]
  have hppy : (postPos s B (0, 0) dt).2 = 0 := by rw [hpp]
  have hpos1 : (0 : ℚ) < boundsX - 1 + dt * 100 := by
    rw [hbx] at hdt ⊢
    linarith
  have hcrossx : boundsX < |(postPos s B (0, 0) dt).1| := by
    rw [hppx, abs_of_pos hpos1]
    linarith [hdt]
  have hnoy : ¬ boundsY < |(postPos s B (0, 0) dt).2| := by
    rw [hppy]
    norm_num [boundsY, HEIGHT, SPACE_SCALE]
  have hc := update_bounce_cases s B (0, 0) dt
  have hx := hc.2.2.1 hcrossx
  have hy := hc.2.2.2.2.2 hnoy
  have hsig : ratSignum (postPos s B (0, 0) dt).1 = 1 := by
    unfold ratSignum
    rw [if_neg]
    rw [hppx]
    exact not_lt.mpr hpos1.le
  constructor
  · apply Prod.ext
    · rw [hx.1, hsig, one_mul]
    · rw [hy.1, hppy]
  · apply Prod.ext
    · rw [hx.2.1, hpv]
      norm_num
    · rw [hy.2, hpv]

/-- Concrete instance of C9: `dt = 1`, unit mass, an exact sqrt oracle. -/
theorem c9_reflection_scenario_witness :
    (1 : ℚ) ≠ 0 ∧ sqrtOK (fun _ => 100) 10000 ∧
    boundsX < boundsX - 1 + 100 * 1 ∧
    (Body.update (fun _ => 100) ⟨(boundsX - 1, 0), (100, 0), 1, 0⟩ (0, 0) 1).pos
      = (boundsX, 0) ∧
    (Body.update (fun _ => 100) ⟨(boundsX - 1, 0), (100, 0), 1, 0⟩ (0, 0) 1).vel
      = (-50, 0) := by
  have h1 : (1 : ℚ) ≠ 0 := by norm_num
  have h2 : sqrtOK (fun _ => 100) 10000 := by
    unfold sqrtOK
    norm_num
  have h3 : boundsX < boundsX - 1 + 100 * 1 := by
    norm_num [boundsX, WIDTH, SPACE_SCALE]
  obtain ⟨ha, hb⟩ := c9_reflection_scenario (fun _ => 100) 1 1 0 h1 h2 h3
  exact ⟨h1, h2, h3, ha, hb⟩

/-! Claim C6: softening and the force at (near-)coincidence. -/

/-- C6 counterexample: two *distinct* bodies at the *same* position.  The
softened denominator `dist_sq` is nonzero, but the direction normalization's
divisor — the unsoftened length of `pos_j - pos_i` — is exactly zero, so the
normalization is not protected by the softening term and the real code
produces a non-finite (NaN) value for this pair. -/
theorem c6_normalize_unprotected_at_coincidence :
    (Body.new (1, 2) (0, 0) 3).pos = (Body.new (1, 2) (5, 0) 4).pos ∧
    Body.new (1, 2) (0, 0) 3 ≠ Body.new (1, 2) (5, 0) 4 ∧
    ¬ normalizeWellDefined ((Body.new (1, 2) (5, 0) 4).pos - (Body.new (1, 2) (0, 0) 3).pos) ∧
    lengthSq ((Body.new (1, 2) (5, 0) 4).pos - (Body.new (1, 2) (0, 0) 3).pos)
      + SOFTENING * SOFTENING ≠ 0 := by
  have hsub : (Body.new (1, 2) (5, 0) 4).pos - (Body.new (1, 2) (0, 0) 3).pos
      = ((0 : ℚ), (0 : ℚ)) := by
    show ((1 : ℚ), (2 : ℚ)) - (1, 2) = (0, 0)
    rw [Prod.mk_sub_mk]
    norm_num
  refine ⟨rfl, ?_, ?_, ?_⟩
  · intro h
    have hv : ((0 : ℚ), (0 : ℚ)) = ((5 : ℚ), (0 : ℚ)) := congrArg Body.vel h
    have h5 := congrArg Prod.fst hv
    norm_num at h5
  · unfold Vec2.normalizeWellDefined
    rw [hsub]
    unfold Vec2.lengthSq
    norm_num
  · rw [hsub]
    unfold Vec2.lengthSq
    norm_num [SOFTENING]

/-- C6 (amended): for every pair of bodies at *distinct* positions, the
normalization divisor is nonzero, the softened denominator is at least
`softening^2 = 25 > 0`, and — for an exact sqrt — the squared pairwise force
magnitude is bounded by `(g*m_i*m_j / softening^2)^2`, so the force stays
bounded as the two positions approach coincidence.  At exact coincidence,
however, the direction normalization divides by zero (the softening protects
only the squared-distance denominator; see the counterexample). -/
theorem c6_softening_bounds_force (s : SqrtFn) (g : ℚ) (b1 b2 : Body)
    (hne : b1.pos ≠ b2.pos) :
    normalizeWellDefined (b2.pos - b1.pos) ∧
    SOFTENING * SOFTENING ≤ lengthSq (b2.pos - b1.pos) + SOFTENING * SOFTENING ∧
    (sqrtOK s (lengthSq (b2.pos - b1.pos)) →
      lengthSq (pairForce s g b1 b2)
        ≤ (g * b1.mass * b2.mass) ^ 2 / (SOFTENING * SOFTENING) ^ 2) := by
  have hL0 : lengthSq (b2.pos - b1.pos) ≠ 0 := by
    intro h
    rw [lengthSq_eq_zero_iff] at h
    apply hne
    rw [Prod.mk_zero_zero] at h
    exact (sub_eq_zero.mp h).symm
  refine ⟨hL0, ?_, ?_⟩
  · have := lengthSq_nonneg (b2.pos - b1.pos)
    linarith
  · rintro ⟨hs0, hs1⟩
    have hLpos : 0 < lengthSq (b2.pos - b1.pos) :=
      lt_of_le_of_ne (lengthSq_nonneg _) (Ne.symm hL0)
    have hcalc : lengthSq (pairForce s g b1 b2)
        = (g * b1.mass * b2.mass) ^ 2
          / ((lengthSq (b2.pos - b1.pos) + SOFTENING * SOFTENING)
              * (lengthSq (b2.pos - b1.pos) + SOFTENING * SOFTENING)) := by
      unfold pairForce
      rw [lengthSq_vdiv, lengthSq_smulV]
      unfold Vec2.normalize Vec2.lengthF
      rw [lengthSq_vdiv, hs1, div_self hL0, mul_one]
    rw [hcalc]
    have hS2 : (0 : ℚ) < SOFTENING * SOFTENING := by norm_num [SOFTENING]
    have hDD : (SOFTENING * SOFTENING) ^ 2
        ≤ (lengthSq (b2.pos - b1.pos) + SOFTENING * SOFTENING)
          * (lengthSq (b2.pos - b1.pos) + SOFTENING * SOFTENING) := by
      nlinarith [lengthSq_nonneg (b2.pos - b1.pos)]
    rw [div_le_div_iff₀ (by nlinarith) (by positivity)]
    nlinarith [sq_nonneg (g * b1.mass * b2.mass)]

/-- Concrete instance of C6 (amended): two bodies 5 apart, an oracle exact at
the one queried value; the force-magnitude bound holds. -/
theorem c6_softening_bounds_force_witness :
    (Body.new (0, 0) (0, 0) 1).pos ≠ (Body.new (3, 4) (0, 0) 1).pos ∧
    sqrtOK (fun q => if q = 25 then 5 else 0)
      (lengthSq ((Body.new (3, 4) (0, 0) 1).pos - (Body.new (0, 0) (0, 0) 1).pos)) ∧
    lengthSq (pairForce (fun q => if q = 25 then 5 else 0) 100
        (Body.new (0, 0) (0, 0) 1) (Body.new (3, 4) (0, 0) 1))
      ≤ (100 * (Body.new (0, 0) (0, 0) 1).mass * (Body.new (3, 4) (0, 0) 1).mass) ^ 2
          / (SOFTENING * SOFTENING) ^ 2 := by
  have hne : (Body.new (0, 0) (0, 0) 1).pos ≠ (Body.new (3, 4) (0, 0) 1).pos := by
    intro h
    have h3 := congrArg Prod.fst h
    norm_num [Body.new] at h3
  have hsub : (Body.new (3, 4) (0, 0) 1).pos - (Body.new (0, 0) (0, 0) 1).pos
      = ((3 : ℚ), (4 : ℚ)) := by
    show ((3 : ℚ), (4 : ℚ)) - (0, 0) = (3, 4)
    rw [Prod.mk_sub_mk]
    norm_num
  have hL : lengthSq ((Body.new (3, 4) (0, 0) 1).pos - (Body.new (0, 0) (0, 0) 1).pos) = 25 := by
    rw [hsub]
    unfold Vec2.lengthSq
    norm_num
  have hok : sqrtOK (fun q => if q = 25 then 5 else 0)
      (lengthSq ((Body.new (3, 4) (0, 0) 1).pos - (Body.new (0, 0) (0, 0) 1).pos)) := by
    unfold sqrtOK
    rw [hL]
    norm_num
  exact ⟨hne, hok,
    (c6_softening_bounds_force (fun q => if q = 25 then 5 else 0) 100
      (Body.new (0, 0) (0, 0) 1) (Body.new (3, 4) (0, 0) 1) hne).2.2 hok⟩

/-! Claim C7: the mass-to-color mapping. -/

/-- Evaluation of the `u32` cast on a rational in `[n, n+1)`. -/
theorem rustU32_eq {q : ℚ} {n : ℕ} (h1 : ((n : ℕ) : ℚ) ≤ q) (h2 : q < ((n : ℕ) : ℚ) + 1)
    (h3 : n < 2 ^ 32) : rustU32 q = n := by
  have h0 : (0 : ℚ) ≤ q := le_trans (by positivity) h1
  have hfl : ⌊q⌋ = (n : ℤ) := by
    rw [Int.floor_eq_iff]
    constructor
    · exact_mod_cast h1
    · exact_mod_cast h2
  unfold rustU32 ratTrunc
  rw [if_neg (not_lt.mpr h0), hfl]
  rw [Int.toNat_natCast]
  omega

/-- C7 counterexample: at `mass = 40.5` (interpolation parameter `t = 1/2`)
the constructed color is `0x7F967F` but the linear interpolation of the
endpoint colors gives `0x7F647F`: the green channel follows `(1 - t^2)*200`,
which is quadratic in `t`, not linear. -/
theorem c7_green_channel_not_linear : bodyColor (81 / 2) ≠ colorLerpSpec (81 / 2) := by
  have ht : ((81 / 2 : ℚ) - MIN_MASS) / (MAX_MASS - MIN_MASS) = 1 / 2 := by
    norm_num [MIN_MASS, MAX_MASS]
  have h1 : bodyColor (81 / 2) = 127 <<< 16 ||| 150 <<< 8 ||| 127 := by
    unfold bodyColor
    rw [ht]
    dsimp only
    rw [show rustU32 ((1 / 2 : ℚ) * 255) = 127 from
      rustU32_eq (by norm_num) (by norm_num) (by norm_num)]
    rw [show rustU32 ((1 - (1 / 2 : ℚ) * (1 / 2)) * 200) = 150 from
      rustU32_eq (by norm_num) (by norm_num) (by norm_num)]
    rw [show rustU32 ((1 - (1 / 2 : ℚ)) * 255) = 127 from
      rustU32_eq (by norm_num) (by norm_num) (by norm_num)]
  have h2 : colorLerpSpec (81 / 2) = 127 <<< 16 ||| 100 <<< 8 ||| 127 := by
    unfold colorLerpSpec
    rw [ht]
    dsimp only
    rw [show rustU32 ((1 / 2 : ℚ) * 255) = 127 from
      rustU32_eq (by norm_num) (by norm_num) (by norm_num)]
    rw [show rustU32 ((1 - (1 / 2 : ℚ)) * 200) = 100 from
      rustU32_eq (by norm_num) (by norm_num) (by norm_num)]
    rw [show rustU32 ((1 - (1 / 2 : ℚ)) * 255) = 127 from
      rustU32_eq (by norm_num) (by norm_num) (by norm_num)]
  rw [h1, h2]
  decide

/-- C7 (amended): the color is derived once from mass at construction and
never changes; both endpoints are attained exactly (`0x00C8FF` cold at
`MIN_MASS`, `0xFF0000` hot at `MAX_MASS`); for every mass in
`[MIN_MASS, MAX_MASS]` the red and blue channels equal the linear
interpolation of the endpoint channels, but the green channel is the
*quadratic* `(1 - t^2) * 200`, not linear (see the counterexample). -/
theorem c7_color_endpoints_and_channels :
    (bodyColor MIN_MASS = colorLerpSpec MIN_MASS ∧ bodyColor MIN_MASS = 0x00C8FF) ∧
    (bodyColor MAX_MASS = colorLerpSpec MAX_MASS ∧ bodyColor MAX_MASS = 0xFF0000) ∧
    (∀ m : ℚ, MIN_MASS ≤ m → m ≤ MAX_MASS →
      bodyColor m / 65536 = colorLerpSpec m / 65536 ∧
      bodyColor m % 256 = colorLerpSpec m % 256 ∧
      bodyColor m / 256 % 256
        = rustU32 ((1 - (m - MIN_MASS) / (MAX_MASS - MIN_MASS)
            * ((m - MIN_MASS) / (MAX_MASS - MIN_MASS))) * 200)) ∧
    (∀ (p v : Vec2) (mq : ℚ), (Body.new p v mq).color = bodyColor mq) ∧
    (∀ (s : SqrtFn) (b : Body) (f : Vec2) (dt : ℚ),
      (Body.update s b f dt).color = b.color) := by
  have ht0 : (MIN_MASS - MIN_MASS) / (MAX_MASS - MIN_MASS) = (0 : ℚ) := by
    norm_num
  have ht1 : (MAX_MASS - MIN_MASS) / (MAX_MASS - MIN_MASS) = (1 : ℚ) := by
    norm_num [MIN_MASS, MAX_MASS]
  have e0 : rustU32 (0 : ℚ) = 0 := rustU32_eq (by norm_num) (by norm_num) (by norm_num)
  have e200 : rustU32 (200 : ℚ) = 200 := rustU32_eq (by norm_num) (by norm_num) (by norm_num)
  have e255 : rustU32 (255 : ℚ) = 255 := rustU32_eq (by norm_num) (by norm_num) (by norm_num)
  have hcold : bodyColor MIN_MASS = 0 <<< 16 ||| 200 <<< 8 ||| 255 := by
    unfold bodyColor
    rw [ht0]
    dsimp only
    rw [show ((0 : ℚ) * 255) = 0 by norm_num, show ((1 - (0 : ℚ) * 0) * 200) = 200 by norm_num,
      show ((1 - (0 : ℚ)) * 255) = 255 by norm_num, e0, e200, e255]
  have hcoldL : colorLerpSpec MIN_MASS = 0 <<< 16 ||| 200 <<< 8 ||| 255 := by
    unfold colorLerpSpec
    rw [ht0]
    dsimp only
    rw [show ((0 : ℚ) * 255) = 0 by norm_num, show ((1 - (0 : ℚ)) * 200) = 200 by norm_num,
      show ((1 - (0 : ℚ)) * 255) = 255 by norm_num, e0, e200, e255]
  have hhot : bodyColor MAX_MASS = 255 <<< 16 ||| 0 <<< 8 ||| 0 := by
    unfold bodyColor
    rw [ht1]
    dsimp only
    rw [show ((1 : ℚ) * 255) = 255 by norm_num, show ((1 - (1 : ℚ) * 1) * 200) = 0 by norm_num,
      show ((1 - (1 : ℚ)) * 255) = 0 by norm_num, e0, e255]
  have hhotL : colorLerpSpec MAX_MASS = 255 <<< 16 ||| 0 <<< 8 ||| 0 := by
    unfold colorLerpSpec
    rw [ht1]
    dsimp only
    rw [show ((1 : ℚ) * 255) = 255 by norm_num, show ((1 - (1 : ℚ)) * 200) = 0 by norm_num,
      show ((1 - (1 : ℚ)) * 255) = 0 by norm_num, e0, e255]
  refine ⟨⟨by rw [hcold, hcoldL], by rw [hcold]; decide⟩,
    ⟨by rw [hhot, hhotL], by rw [hhot]; decide⟩, ?_, fun p v mq => rfl,
    fun s b f dt => rfl⟩
  intro m hmlo hmhi
  have h1 : (1 : ℚ) ≤ m := hmlo
  have h80 : m ≤ (80 : ℚ) := hmhi
  set t : ℚ := (m - MIN_MASS) / (MAX_MASS - MIN_MASS) with htdef
  have htval : t = (m - 1) / 79 := by
    rw [htdef]
    norm_num [MIN_MASS, MAX_MASS]
  have ht0' : (0 : ℚ) ≤ t := by
    rw [htval]
    apply div_nonneg
    · linarith
    · norm_num
  have ht1' : t ≤ 1 := by
    rw [htval]
    rw [div_le_one (by norm_num)]
    linarith
  have hr : rustU32 (t * 255) < 256 := rustU32_lt_256 (by nlinarith)
  have hg : rustU32 ((1 - t * t) * 200) < 256 := rustU32_lt_256 (by nlinarith)
  have hb : rustU32 ((1 - t) * 255) < 256 := rustU32_lt_256 (by nlinarith)
  have hgL : rustU32 ((1 - t) * 200) < 256 := rustU32_lt_256 (by nlinarith)
  have hpack1 : bodyColor m
      = rustU32 (t * 255) * 65536 + rustU32 ((1 - t * t) * 200) * 256
        + rustU32 ((1 - t) * 255) := by
    unfold bodyColor
    rw [← htdef]
    exact pack_channels _ _ _ hg hb
  have hpack2 : colorLerpSpec m
      = rustU32 (t * 255) * 65536 + rustU32 ((1 - t) * 200) * 256
        + rustU32 ((1 - t) * 255) := by
    unfold colorLerpSpec
    rw [← htdef]
    exact pack_channels _ _ _ hgL hb
  refine ⟨?_, ?_, ?_⟩
  · omega
  · omega
  · rw [hpack1]
    omega

/-- Concrete instance of C7 (amended): at `mass = 2` the red and blue
channels of the constructed color agree with the linear interpolation. -/
theorem c7_color_endpoints_and_channels_witness :
    MIN_MASS ≤ (2 : ℚ) ∧ (2 : ℚ) ≤ MAX_MASS ∧
    bodyColor 2 / 65536 = colorLerpSpec 2 / 65536 ∧
    bodyColor 2 % 256 = colorLerpSpec 2 % 256 := by
  have ha : MIN_MASS ≤ (2 : ℚ) := by norm_num [MIN_MASS]
  have hb : (2 : ℚ) ≤ MAX_MASS := by norm_num [MAX_MASS]
  obtain ⟨g1, g2, _⟩ := c7_color_endpoints_and_channels.2.2.1 2 ha hb
  exact ⟨ha, hb, g1, g2⟩

/-! Claim C8: every rasterizer write lands inside the frame buffer. -/

/-- Truncation is the identity on cast naturals. -/
theorem ratTrunc_natCast (n : ℕ) : ratTrunc ((n : ℕ) : ℚ) = n := by
  have h := ratTrunc_intCast (n : ℤ)
  push_cast at h
  exact_mod_cast h

/-- The `i32` cast is the identity on (small) cast naturals. -/
theorem rustI32_natCast (n : ℕ) (h : n < 2 ^ 31) : rustI32 ((n : ℕ) : ℚ) = n := by
  unfold rustI32
  rw [ratTrunc_natCast]
  omega

/-- C8: for every center, radius, color and central-body flag, every pixel
write performed by `draw_circle` has `0 ≤ px < WIDTH`, `0 ≤ py < HEIGHT` and
buffer index `< WIDTH * HEIGHT` — off-buffer coordinates are never written,
even when the disc or glow extends past the buffer edges. -/
theorem c8_draw_circle_writes_in_bounds (center : Vec2) (radius : ℚ) (color : ℕ)
    (ic : Bool) (w : ℤ × ℤ × ℕ × ℕ) (hw : w ∈ drawCircleWrites center radius color ic) :
    0 ≤ w.1 ∧ w.1 < (WIDTH : ℤ) ∧ 0 ≤ w.2.1 ∧ w.2.1 < (HEIGHT : ℤ) ∧
    w.2.2.1 < WIDTH * HEIGHT := by
  unfold drawCircleWrites at hw
  rw [List.mem_flatMap] at hw
  obtain ⟨y, hy, hx⟩ := hw
  rw [List.mem_filterMap] at hx
  obtain ⟨x, hxm, heq⟩ := hx
  dsimp only at heq
  set gr : ℤ := if ic = true then rustI32 radius * 2 else rustI32 radius + 2 with hgr
  split at heq
  · split at heq
    · rename_i hguard
      obtain ⟨hpx0, hpxW, hpy0, hpyH⟩ := hguard
      split at heq
      · rw [← Option.some.inj heq]
        dsimp only
        simp only [WIDTH, HEIGHT] at hpxW hpyH ⊢
        exact ⟨hpx0, hpxW, hpy0, hpyH, by omega⟩
      · rw [← Option.some.inj heq]
        dsimp only
        simp only [WIDTH, HEIGHT] at hpxW hpyH ⊢
        exact ⟨hpx0, hpxW, hpy0, hpyH, by omega⟩
    · simp at heq
  · simp at heq

/-- Concrete instance of C8: the single write of a zero-radius central body
at the world origin lands at the center of the buffer, in bounds. -/
theorem c8_draw_circle_writes_in_bounds_witness :
    (((1920 : ℤ), (1080 : ℤ), (4149120 : ℕ), (7 : ℕ))
        ∈ drawCircleWrites (0, 0) 0 7 true) ∧
    0 ≤ (1920 : ℤ) ∧ (1920 : ℤ) < (WIDTH : ℤ) ∧
    0 ≤ (1080 : ℤ) ∧ (1080 : ℤ) < (HEIGHT : ℤ) ∧
    (4149120 : ℕ) < WIDTH * HEIGHT := by
  have hxc : rustI32 ((0 : ℚ) / SPACE_SCALE + (WIDTH : ℚ) / 2) = 1920 := by
    rw [show ((0 : ℚ) / SPACE_SCALE + (WIDTH : ℚ) / 2) = ((1920 : ℕ) : ℚ) from by
      norm_num [SPACE_SCALE, WIDTH]]
    rw [rustI32_natCast 1920 (by norm_num)]
    norm_num
  have hyc : rustI32 ((0 : ℚ) / SPACE_SCALE + (HEIGHT : ℚ) / 2) = 1080 := by
    rw [show ((0 : ℚ) / SPACE_SCALE + (HEIGHT : ℚ) / 2) = ((1080 : ℕ) : ℚ) from by
      norm_num [SPACE_SCALE, HEIGHT]]
    rw [rustI32_natCast 1080 (by norm_num)]
    norm_num
  have hr : rustI32 (0 : ℚ) = 0 := by
    rw [show (0 : ℚ) = ((0 : ℕ) : ℚ) from by norm_num]
    rw [rustI32_natCast 0 (by norm_num)]
    norm_num
  have hmem : ((1920 : ℤ), (1080 : ℤ), (4149120 : ℕ), (7 : ℕ))
      ∈ drawCircleWrites (0, 0) 0 7 true := by
    unfold drawCircleWrites
    dsimp only
    rw [hxc, hyc, hr]
    decide
  refine ⟨hmem, ?_⟩
  exact c8_draw_circle_writes_in_bounds (0, 0) 0 7 true _ hmem

/-! Claim C10: the central body's rendered color vs its stored color. -/

/-- The `u32` cast of a negative float saturates to 0. -/
theorem rustU32_of_neg {q : ℚ} (h : q < 0) : rustU32 q = 0 := by
  unfold rustU32 ratTrunc
  rw [if_pos h]
  have hc : (⌈q⌉ : ℤ) ≤ 0 := Int.ceil_le.mpr (by exact_mod_cast h.le)
  omega

/-- C10: the rendering pass never reads body 0's stored color — replacing it
changes no write (the central body is always drawn with the hard-coded
constant `0xFFAA33`, which appears verbatim in `renderFrameWrites`); and the
stored color itself, computed by the mass-to-color mapping at
`t = (CENTRAL_MASS - MIN_MASS)/(MAX_MASS - MIN_MASS) > 1`, is `0x19340000`,
whose red field `6452` overflows the intended 8-bit range (green and blue
saturate to 0). -/
theorem c10_central_rendered_with_constant (s : SqrtFn) (b0 : Body) (c' : ℕ)
    (rest : List Body) :
    renderFrameWrites s ({ b0 with color := c' } :: rest)
      = renderFrameWrites s (b0 :: rest) ∧
    Body.central.color = 0x19340000 ∧
    1 < (CENTRAL_MASS - MIN_MASS) / (MAX_MASS - MIN_MASS) ∧
    Body.central.color >>> 16 = 6452 ∧
    255 < Body.central.color >>> 16 := by
  have ht : (CENTRAL_MASS - MIN_MASS) / (MAX_MASS - MIN_MASS) = 1999 / 79 := by
    norm_num [CENTRAL_MASS, MIN_MASS, MAX_MASS]
  have hcol : Body.central.color = 6452 <<< 16 ||| 0 <<< 8 ||| 0 := by
    show bodyColor CENTRAL_MASS = _
    unfold bodyColor
    rw [ht]
    dsimp only
    rw [show rustU32 ((1999 / 79 : ℚ) * 255) = 6452 from
      rustU32_eq (by norm_num) (by norm_num) (by norm_num)]
    rw [show rustU32 ((1 - (1999 / 79 : ℚ) * (1999 / 79)) * 200) = 0 from
      rustU32_of_neg (by norm_num)]
    rw [show rustU32 ((1 - (1999 / 79 : ℚ)) * 255) = 0 from
      rustU32_of_neg (by norm_num)]
  refine ⟨?_, ?_, ?_, ?_, ?_⟩
  · unfold renderFrameWrites Body.radius
    simp
  · rw [hcol]
    decide
  · rw [ht]
    norm_num
  · rw [hcol]
    decide
  · rw [hcol]
    decide

/-- Concrete instance of C10: changing body 0's stored color changes no
rendered write. -/
theorem c10_central_rendered_with_constant_witness :
    renderFrameWrites (fun _ => -2) ({ Body.new (0, 0) (0, 0) 1 with color := 99 } :: [])
      = renderFrameWrites (fun _ => -2) (Body.new (0, 0) (0, 0) 1 :: []) :=
  (c10_central_rendered_with_constant (fun _ => -2) (Body.new (0, 0) (0, 0) 1) 99 []).1
